import Mathlib

/-!
Shallow embedding of the Versus smart-contract system (three Concordium V1
contracts: `Versus-State`, `Versus-Implementation`, `Versus-Proxy`) together
with theorems settling the specification claims.

Conventions of the embedding:
* Machine addresses are modelled abstractly: an account address is a `Nat`,
  a contract address is a pair of `Nat` (index, subindex), mirroring
  Concordium `ContractAddress`.
* Each receive entry point becomes a function from the sender, the (typed)
  parameter and the durable contract state to `Except e a`.  An `Except.error`
  outcome corresponds to a rejected transaction: the host rolls back every
  state change of the call, so an error result carries no successor state.
* Cross-contract invocations from Implementation to State are modelled by a
  `World` that carries both durable stores plus the addresses the two
  instances are deployed at.  A call targeting an address at which no State
  instance lives fails like a missing-contract invocation
  (`InvokeContractError`), and a rejection inside the callee surfaces as
  `InvokeContractError` in the caller, matching
  `From<CallContractError<T>> for CustomContractError` in the sources.
* Parameters of cross-contract calls travel in serialized form.  Enumerations
  are serialized as their variant ordinal (leading discriminant byte), so the
  embedding marshals an enum across a call boundary through its ordinal; this
  matters because Implementation and State declare different `PlayerState`
  enumerations.
* Event logging is not modelled: no claim concerns the event log, and the
  loggers in the sources cannot fail in any way the claims observe.
-/

/-- Decidable equality for `Except`, needed to evaluate entry-point outcomes
with `decide`. -/
instance exceptDecEq {e a : Type} [DecidableEq e] [DecidableEq a] :
    DecidableEq (Except e a) := fun x y =>
  match x, y with
  | .ok v, .ok w =>
      if h : v = w then .isTrue (by rw [h])
      else .isFalse (by intro hh; injection hh; contradiction)
  | .error v, .error w =>
      if h : v = w then .isTrue (by rw [h])
      else .isFalse (by intro hh; injection hh; contradiction)
  | .ok _, .error _ => .isFalse (by intro hh; exact Except.noConfusion hh)
  | .error _, .ok _ => .isFalse (by intro hh; exact Except.noConfusion hh)

namespace Versus

/-- Concordium contract address: instance index and subindex. -/
structure ContractAddress where
  index : Nat
  subindex : Nat
deriving DecidableEq, Repr

/-- Concordium address: either an account or a contract instance. -/
inductive Address
  | Account (addr : Nat)
  | Contract (addr : ContractAddress)
deriving DecidableEq, Repr

/-- Translation of Concordium `Address::matches_contract`: true exactly when
the address is the given contract address. -/
def Address.matches_contract : Address → ContractAddress → Bool
  | .Contract c, t => decide (c = t)
  | .Account _, _ => false

end Versus

namespace VState

/-- Lifecycle state stored by the State contract (source `state/src/lib.rs`,
variants in declaration order `Active`, `Suspended`). -/
inductive PlayerState
  | Active
  | Suspended
deriving DecidableEq, Repr

/-- Battle result stored by the State contract (declaration order `NoResult`,
`Win`, `Loss`). -/
inductive BattleResult
  | NoResult
  | Win
  | Loss
deriving DecidableEq, Repr

/-- Serialization ordinal of `VState.PlayerState` (leading discriminant byte
of the derived `Serialize`). -/
def PlayerState.toOrdinal : PlayerState → Nat
  | .Active => 0
  | .Suspended => 1

/-- Deserialization of `VState.PlayerState` from a discriminant ordinal. -/
def PlayerState.ofOrdinal : Nat → Option PlayerState
  | 0 => some .Active
  | 1 => some .Suspended
  | _ => none

/-- Serialization ordinal of `VState.BattleResult`. -/
def BattleResult.toOrdinal : BattleResult → Nat
  | .NoResult => 0
  | .Win => 1
  | .Loss => 2

/-- Deserialization of `VState.BattleResult` from a discriminant ordinal. -/
def BattleResult.ofOrdinal : Nat → Option BattleResult
  | 0 => some .NoResult
  | 1 => some .Win
  | 2 => some .Loss
  | _ => none

/-- Per-player record held by the State contract (`PlayerData`). -/
structure PlayerData where
  state : PlayerState
  result : BattleResult
deriving DecidableEq, Repr

/-- The two-phase address knowledge of the State contract
(`ProtocolAddressesState`). -/
inductive ProtocolAddressesState
  | UnInitialized
  | Initialized (proxy_address : Versus.ContractAddress)
      (implementation_address : Versus.ContractAddress)
deriving DecidableEq, Repr

/-- Durable store of the State contract (`State<S>`); the `StateMap` of
players is modelled as an association list. -/
structure State where
  protocol_addresses : ProtocolAddressesState
  player_data : List (Versus.Address × PlayerData)
  paused : Bool
deriving DecidableEq, Repr

/-- Error enumeration of the State contract (`CustomContractError`). -/
inductive CustomContractError
  | ParseParamsError
  | InvokeContractError
  | ContractPaused
  | AlreadyInitialized
  | UnInitialized
  | OnlyImplementation
  | OnlyProxy
  | StateInvokeError
deriving DecidableEq, Repr

abbrev ContractResult (A : Type) := Except CustomContractError A

/-- Lookup of a player record in the association-list model of `StateMap`. -/
def lookupPlayer : List (Versus.Address × PlayerData) → Versus.Address →
    Option PlayerData
  | [], _ => none
  | (a, d) :: rest, p => if a = p then some d else lookupPlayer rest p

/-- Insertion (or in-place replacement) of a player record in the
association-list model of `StateMap`. -/
def insertPlayer : List (Versus.Address × PlayerData) → Versus.Address →
    PlayerData → List (Versus.Address × PlayerData)
  | [], p, d => [(p, d)]
  | (a, e) :: rest, p, d =>
      if a = p then (p, d) :: rest else (a, e) :: insertPlayer rest p d

/-- Translation of `StateMap::entry(..).or_insert_with(..)`: returns the
existing record (map unchanged) or inserts the default and returns it. -/
def entryOrInsert (m : List (Versus.Address × PlayerData))
    (p : Versus.Address) (d : PlayerData) :
    PlayerData × List (Versus.Address × PlayerData) :=
  match lookupPlayer m p with
  | some e => (e, m)
  | none => (d, insertPlayer m p d)

/-- Translation of `State::new`: uninitialized addresses, empty player map,
not paused. -/
def State.new : State :=
  { protocol_addresses := .UnInitialized, player_data := [], paused := false }

/-- Translation of `contract_state_initialize`: one-shot guard against
`AlreadyInitialized`, then store both addresses; the sender is never
inspected. -/
def contract_state_initialize (_sender : Versus.Address)
    (proxy_address implementation_address : Versus.ContractAddress)
    (st : State) : ContractResult State :=
  if st.protocol_addresses = .UnInitialized then
    .ok { st with
      protocol_addresses := .Initialized proxy_address implementation_address }
  else
    .error .AlreadyInitialized

/-- Translation of the State contract helper `only_implementation`. -/
def only_implementation (implementation_address : Versus.ContractAddress)
    (sender : Versus.Address) : ContractResult Unit :=
  if sender.matches_contract implementation_address then .ok ()
  else .error .OnlyImplementation

/-- Translation of the State contract helper `only_proxy`. -/
def only_proxy (proxy_address : Versus.ContractAddress)
    (sender : Versus.Address) : ContractResult Unit :=
  if sender.matches_contract proxy_address then .ok ()
  else .error .OnlyProxy

/-- Translation of `get_protocol_addresses_from_state`. -/
def get_protocol_addresses_from_state (st : State) :
    ContractResult (Versus.ContractAddress × Versus.ContractAddress) :=
  match st.protocol_addresses with
  | .Initialized p i => .ok (p, i)
  | .UnInitialized => .error .UnInitialized

/-- Translation of `contract_state_set_implementation_address`: requires
initialization, gates the call to the recorded proxy, then replaces only the
implementation half of the address pair. -/
def contract_state_set_implementation_address (sender : Versus.Address)
    (implementation_address : Versus.ContractAddress) (st : State) :
    ContractResult State :=
  match get_protocol_addresses_from_state st with
  | .error e => .error e
  | .ok (proxy_address, _old_implementation) =>
      match only_proxy proxy_address sender with
      | .error e => .error e
      | .ok _ =>
          .ok { st with protocol_addresses :=
            .Initialized proxy_address implementation_address }

/-- Translation of `contract_state_set_paused`: requires initialization,
gates the call to the recorded implementation, then stores the flag. -/
def contract_state_set_paused (sender : Versus.Address) (paused : Bool)
    (st : State) : ContractResult State :=
  match get_protocol_addresses_from_state st with
  | .error e => .error e
  | .ok (_proxy_address, implementation_address) =>
      match only_implementation implementation_address sender with
      | .error e => .error e
      | .ok _ => .ok { st with paused := paused }

/-- Translation of `contract_state_update_player_state`: after the guards,
get-or-create the player record with default `(Active, NoResult)` and set its
lifecycle-state field. -/
def contract_state_update_player_state (sender : Versus.Address)
    (player : Versus.Address) (pstate : PlayerState) (st : State) :
    ContractResult State :=
  match get_protocol_addresses_from_state st with
  | .error e => .error e
  | .ok (_proxy_address, implementation_address) =>
      match only_implementation implementation_address sender with
      | .error e => .error e
      | .ok _ =>
          let (d, m) := entryOrInsert st.player_data player
            { state := .Active, result := .NoResult }
          .ok { st with player_data :=
            insertPlayer m player { d with state := pstate } }

/-- Translation of `contract_state_update_battle_result`: after the guards,
get-or-create the player record and set its battle-result field. -/
def contract_state_update_battle_result (sender : Versus.Address)
    (player : Versus.Address) (result : BattleResult) (st : State) :
    ContractResult State :=
  match get_protocol_addresses_from_state st with
  | .error e => .error e
  | .ok (_proxy_address, implementation_address) =>
      match only_implementation implementation_address sender with
      | .error e => .error e
      | .ok _ =>
          let (d, m) := entryOrInsert st.player_data player
            { state := .Active, result := .NoResult }
          .ok { st with player_data :=
            insertPlayer m player { d with result := result } }

/-- Translation of `contract_state_set_player_data` (receive name
`addPlayer`): after the guards, get-or-create the player record with the
default `(Active, NoResult)` and nothing more. -/
def contract_state_set_player_data (sender : Versus.Address)
    (player : Versus.Address) (st : State) : ContractResult State :=
  match get_protocol_addresses_from_state st with
  | .error e => .error e
  | .ok (_proxy_address, implementation_address) =>
      match only_implementation implementation_address sender with
      | .error e => .error e
      | .ok _ =>
          let (_d, m) := entryOrInsert st.player_data player
            { state := .Active, result := .NoResult }
          .ok { st with player_data := m }

/-- Translation of `contract_state_get_paused`: a non-mutable receive that
returns the stored flag unconditionally. -/
def contract_state_get_paused (st : State) : ContractResult Bool :=
  .ok st.paused

/-- Translation of `contract_state_get_player_data`: a non-mutable receive
that reads the player entry with no initialization or sender guard.  The
source reads the entry of the player; for a player with no record the entry
default `(Active, NoResult)` — the same default every write path inserts —
is used. -/
def contract_state_get_player_data (player : Versus.Address) (st : State) :
    ContractResult (PlayerState × BattleResult) :=
  let d := (lookupPlayer st.player_data player).getD
    { state := .Active, result := .NoResult }
  .ok (d.state, d.result)

/-- Modelled from the spec: the State "already added" predicate (entrypoint
`isAdded`), which Implementation `addPlayer` invokes read-only but which is
missing from `src/state`.  Per the spec it reports whether the player already
has a record in the durable player map. -/
def contract_state_is_added (player : Versus.Address) (st : State) :
    ContractResult Bool :=
  .ok (lookupPlayer st.player_data player).isSome

/-- Return type of the State `view` entry point (`ReturnBasicState`). -/
structure ReturnBasicState where
  proxy_address : Versus.ContractAddress
  implementation_address : Versus.ContractAddress
  paused : Bool
deriving DecidableEq, Repr

/-- Translation of `contract_state_view`: fails with `UnInitialized` before
initialization, otherwise returns both addresses and the pause flag. -/
def contract_state_view (st : State) : ContractResult ReturnBasicState :=
  match get_protocol_addresses_from_state st with
  | .error e => .error e
  | .ok (proxy_address, implementation_address) =>
      .ok { proxy_address := proxy_address,
            implementation_address := implementation_address,
            paused := st.paused }

/-- The mutable receive entry points of the State contract, used to quantify
over every operation that can touch the durable store. -/
inductive StateOp
  | initializeEntry (sender : Versus.Address)
      (proxy_address implementation_address : Versus.ContractAddress)
  | setImplementationAddress (sender : Versus.Address)
      (implementation_address : Versus.ContractAddress)
  | setPaused (sender : Versus.Address) (paused : Bool)
  | updatePlayerState (sender player : Versus.Address) (pstate : PlayerState)
  | updateBattleResult (sender player : Versus.Address) (result : BattleResult)
  | addPlayer (sender player : Versus.Address)
deriving DecidableEq, Repr

/-- Dispatch of a mutable State receive entry point. -/
def applyStateOp : StateOp → State → ContractResult State
  | .initializeEntry sender p i, st => contract_state_initialize sender p i st
  | .setImplementationAddress sender i, st =>
      contract_state_set_implementation_address sender i st
  | .setPaused sender b, st => contract_state_set_paused sender b st
  | .updatePlayerState sender player s, st =>
      contract_state_update_player_state sender player s st
  | .updateBattleResult sender player r, st =>
      contract_state_update_battle_result sender player r st
  | .addPlayer sender player, st =>
      contract_state_set_player_data sender player st

end VState

namespace VImpl

/-- Lifecycle state as declared by the Implementation contract (source
`implementation/src/lib.rs`, declaration order `NotAdded`, `Active`,
`Suspended` — one variant more than the State contract). -/
inductive PlayerState
  | NotAdded
  | Active
  | Suspended
deriving DecidableEq, Repr

/-- Battle result as declared by the Implementation contract (declaration
order `NoResult`, `Win`, `Loss`, matching the State contract). -/
inductive BattleResult
  | NoResult
  | Win
  | Loss
deriving DecidableEq, Repr

/-- Serialization ordinal of `VImpl.PlayerState`. -/
def PlayerState.toOrdinal : PlayerState → Nat
  | .NotAdded => 0
  | .Active => 1
  | .Suspended => 2

/-- Deserialization of `VImpl.PlayerState` from a discriminant ordinal. -/
def PlayerState.ofOrdinal : Nat → Option PlayerState
  | 0 => some .NotAdded
  | 1 => some .Active
  | 2 => some .Suspended
  | _ => none

/-- Serialization ordinal of `VImpl.BattleResult`. -/
def BattleResult.toOrdinal : BattleResult → Nat
  | .NoResult => 0
  | .Win => 1
  | .Loss => 2

/-- Deserialization of `VImpl.BattleResult` from a discriminant ordinal. -/
def BattleResult.ofOrdinal : Nat → Option BattleResult
  | 0 => some .NoResult
  | 1 => some .Win
  | 2 => some .Loss
  | _ => none

/-- The two-phase address knowledge of the Implementation contract
(`ProtocolAddressesImplementation`): proxy and state addresses. -/
inductive ProtocolAddressesImplementation
  | UnInitialized
  | Initialized (proxy_address : Versus.ContractAddress)
      (state_address : Versus.ContractAddress)
deriving DecidableEq, Repr

/-- Durable store of the Implementation contract (`StateImplementation`). -/
structure StateImplementation where
  admin : Versus.Address
  protocol_addresses : ProtocolAddressesImplementation
deriving DecidableEq, Repr

/-- Error enumeration of the Implementation contract
(`CustomContractError`). -/
inductive CustomContractError
  | ParseParamsError
  | LogFull
  | LogMalformed
  | InvokeContractError
  | ContractPaused
  | AlreadyInitialized
  | UnInitialized
  | OnlyProxy
  | StateInvokeError
  | OnlyAdmin
  | AlreadyAdded
deriving DecidableEq, Repr

abbrev ContractResult (A : Type) := Except CustomContractError A

/-- Execution context for cross-contract calls: the Implementation durable
store together with the durable store of the State contract and the addresses
the two instances are deployed at.  A call that targets any address other
than `stateAddr` behaves like an invocation of a missing contract. -/
structure World where
  impl : StateImplementation
  implAddr : Versus.ContractAddress
  stateData : VState.State
  stateAddr : Versus.ContractAddress
deriving DecidableEq, Repr

/-- Translation of `StateImplementation::new`. -/
def StateImplementation.new (admin : Versus.Address) : StateImplementation :=
  { admin := admin, protocol_addresses := .UnInitialized }

/-- Translation of `contract_initialize` (Implementation `initialize`):
one-shot guard, then store proxy and state addresses; the sender is never
inspected. -/
def contract_initialize (_sender : Versus.Address)
    (proxy_address state_address : Versus.ContractAddress)
    (st : StateImplementation) : ContractResult StateImplementation :=
  if st.protocol_addresses = .UnInitialized then
    .ok { st with
      protocol_addresses := .Initialized proxy_address state_address }
  else
    .error .AlreadyInitialized

/-- Translation of the Implementation helper `only_proxy`. -/
def only_proxy (proxy_address : Versus.ContractAddress)
    (sender : Versus.Address) : ContractResult Unit :=
  if sender.matches_contract proxy_address then .ok ()
  else .error .OnlyProxy

/-- Translation of `get_protocol_addresses_from_implementation`. -/
def get_protocol_addresses_from_implementation (st : StateImplementation) :
    ContractResult (Versus.ContractAddress × Versus.ContractAddress) :=
  match st.protocol_addresses with
  | .Initialized p s => .ok (p, s)
  | .UnInitialized => .error .UnInitialized

/-- Translation of `when_not_paused`: a read-only cross-call of `getPaused`
on the given state address; a failing invocation surfaces as
`InvokeContractError`, a `true` flag as `ContractPaused`. -/
def when_not_paused (state_address : Versus.ContractAddress) (w : World) :
    ContractResult Unit :=
  if state_address = w.stateAddr then
    match VState.contract_state_get_paused w.stateData with
    | .ok paused => if paused then .error .ContractPaused else .ok ()
    | .error _ => .error .InvokeContractError
  else
    .error .InvokeContractError

/-- Translation of `StateImplementation::is_added`: a read-only cross-call of
the State `isAdded` predicate; a failing invocation surfaces as
`InvokeContractError`. -/
def StateImplementation.is_added (state_address : Versus.ContractAddress)
    (player : Versus.Address) (w : World) : ContractResult Bool :=
  if state_address = w.stateAddr then
    match VState.contract_state_is_added player w.stateData with
    | .ok b => .ok b
    | .error _ => .error .InvokeContractError
  else
    .error .InvokeContractError

/-- Translation of `contract_implementation_update_player_state`: guards
(initialized, only proxy, not paused), then a mutating cross-call of the
State `updatePlayerState` entry, as the Implementation contract address.  The
lifecycle state crosses the call boundary as its serialization ordinal and
must re-parse as a `VState.PlayerState`; a parse failure inside the callee is
a logic reject there and surfaces as `InvokeContractError` here. -/
def contract_implementation_update_player_state (sender : Versus.Address)
    (player : Versus.Address) (pstate : PlayerState) (w : World) :
    ContractResult World :=
  match get_protocol_addresses_from_implementation w.impl with
  | .error e => .error e
  | .ok (proxy_address, state_address) =>
      match only_proxy proxy_address sender with
      | .error e => .error e
      | .ok _ =>
          match when_not_paused state_address w with
          | .error e => .error e
          | .ok _ =>
              if state_address = w.stateAddr then
                match VState.PlayerState.ofOrdinal pstate.toOrdinal with
                | none => .error .InvokeContractError
                | some s =>
                    match VState.contract_state_update_player_state
                        (.Contract w.implAddr) player s w.stateData with
                    | .ok st => .ok { w with stateData := st }
                    | .error _ => .error .InvokeContractError
              else
                .error .InvokeContractError

/-- Translation of `contract_implementation_update_battle_result`: guards,
then a mutating cross-call of the State `updateBattleResult` entry; the
battle result crosses the boundary as its serialization ordinal. -/
def contract_implementation_update_battle_result (sender : Versus.Address)
    (player : Versus.Address) (result : BattleResult) (w : World) :
    ContractResult World :=
  match get_protocol_addresses_from_implementation w.impl with
  | .error e => .error e
  | .ok (proxy_address, state_address) =>
      match only_proxy proxy_address sender with
      | .error e => .error e
      | .ok _ =>
          match when_not_paused state_address w with
          | .error e => .error e
          | .ok _ =>
              if state_address = w.stateAddr then
                match VState.BattleResult.ofOrdinal result.toOrdinal with
                | none => .error .InvokeContractError
                | some r =>
                    match VState.contract_state_update_battle_result
                        (.Contract w.implAddr) player r w.stateData with
                    | .ok st => .ok { w with stateData := st }
                    | .error _ => .error .InvokeContractError
              else
                .error .InvokeContractError

/-- Translation of `contract_implementation_add_player`: guards, then the
source `ensure!(is_added, AlreadyAdded)` — which passes only when the player
is already added — then a mutating cross-call of the State `addPlayer`
entry. -/
def contract_implementation_add_player (sender : Versus.Address)
    (player : Versus.Address) (w : World) : ContractResult World :=
  match get_protocol_addresses_from_implementation w.impl with
  | .error e => .error e
  | .ok (proxy_address, state_address) =>
      match only_proxy proxy_address sender with
      | .error e => .error e
      | .ok _ =>
          match when_not_paused state_address w with
          | .error e => .error e
          | .ok _ =>
              match StateImplementation.is_added state_address player w with
              | .error e => .error e
              | .ok is_added =>
                  if is_added then
                    if state_address = w.stateAddr then
                      match VState.contract_state_set_player_data
                          (.Contract w.implAddr) player w.stateData with
                      | .ok st => .ok { w with stateData := st }
                      | .error _ => .error .InvokeContractError
                    else
                      .error .InvokeContractError
                  else
                    .error .AlreadyAdded

/-- Translation of `contract_implementation_update_admin`: gated to the
current admin only; no initialization guard. -/
def contract_implementation_update_admin (sender : Versus.Address)
    (new_admin : Versus.Address) (st : StateImplementation) :
    ContractResult StateImplementation :=
  if sender = st.admin then .ok { st with admin := new_admin }
  else .error .OnlyAdmin

/-- Translation of `contract_pause`: gated to the current admin, requires
initialization, then a mutating cross-call `setPaused(true)` on State. -/
def contract_pause (sender : Versus.Address) (w : World) :
    ContractResult World :=
  if sender = w.impl.admin then
    match get_protocol_addresses_from_implementation w.impl with
    | .error e => .error e
    | .ok (_proxy_address, state_address) =>
        if state_address = w.stateAddr then
          match VState.contract_state_set_paused
              (.Contract w.implAddr) true w.stateData with
          | .ok st => .ok { w with stateData := st }
          | .error _ => .error .InvokeContractError
        else
          .error .InvokeContractError
  else
    .error .OnlyAdmin

/-- Translation of `contract_un_pause`: gated to the current admin, requires
initialization, then a mutating cross-call `setPaused(false)` on State. -/
def contract_un_pause (sender : Versus.Address) (w : World) :
    ContractResult World :=
  if sender = w.impl.admin then
    match get_protocol_addresses_from_implementation w.impl with
    | .error e => .error e
    | .ok (_proxy_address, state_address) =>
        if state_address = w.stateAddr then
          match VState.contract_state_set_paused
              (.Contract w.implAddr) false w.stateData with
          | .ok st => .ok { w with stateData := st }
          | .error _ => .error .InvokeContractError
        else
          .error .InvokeContractError
  else
    .error .OnlyAdmin

/-- Translation of `contract_implementation_get_player_data`: requires
initialization, then a read-only cross-call of the State `getPlayerData`
entry; the returned pair crosses the boundary as serialization ordinals and
re-parses into the Implementation enumerations. -/
def contract_implementation_get_player_data (player : Versus.Address)
    (w : World) : ContractResult (PlayerState × BattleResult) :=
  match get_protocol_addresses_from_implementation w.impl with
  | .error e => .error e
  | .ok (_proxy_address, state_address) =>
      if state_address = w.stateAddr then
        match VState.contract_state_get_player_data player w.stateData with
        | .ok (s, r) =>
            match PlayerState.ofOrdinal s.toOrdinal,
                  BattleResult.ofOrdinal r.toOrdinal with
            | some ps, some br => .ok (ps, br)
            | _, _ => .error .ParseParamsError
        | .error _ => .error .InvokeContractError
      else
        .error .InvokeContractError

/-- Translation of `contract_implementation_view`: returns the full durable
store with no guard. -/
def contract_implementation_view (st : StateImplementation) :
    ContractResult StateImplementation :=
  .ok st

/-- The mutable receive entry points of the Implementation contract, used to
quantify over every operation that can touch durable data. -/
inductive ImplOp
  | initializeEntry (sender : Versus.Address)
      (proxy_address state_address : Versus.ContractAddress)
  | updatePlayerState (sender player : Versus.Address) (pstate : PlayerState)
  | updateBattleResult (sender player : Versus.Address) (result : BattleResult)
  | addPlayer (sender player : Versus.Address)
  | updateAdmin (sender new_admin : Versus.Address)
  | pause (sender : Versus.Address)
  | unpause (sender : Versus.Address)
  | getPlayerData (sender player : Versus.Address)
deriving DecidableEq, Repr

/-- Dispatch of a mutable Implementation receive entry point on a world. -/
def applyImplOp : ImplOp → World → ContractResult World
  | .initializeEntry sender p s, w =>
      match contract_initialize sender p s w.impl with
      | .ok st => .ok { w with impl := st }
      | .error e => .error e
  | .updatePlayerState sender player ps, w =>
      contract_implementation_update_player_state sender player ps w
  | .updateBattleResult sender player r, w =>
      contract_implementation_update_battle_result sender player r w
  | .addPlayer sender player, w =>
      contract_implementation_add_player sender player w
  | .updateAdmin sender new_admin, w =>
      match contract_implementation_update_admin sender new_admin w.impl with
      | .ok st => .ok { w with impl := st }
      | .error e => .error e
  | .pause sender, w => contract_pause sender w
  | .unpause sender, w => contract_un_pause sender w
  | .getPlayerData _sender player, w =>
      match contract_implementation_get_player_data player w with
      | .ok _ => .ok w
      | .error e => .error e

end VImpl

namespace VProxy

/-- Durable store of the Proxy contract (`StateProxy`); all three fields are
set by the constructor. -/
structure StateProxy where
  admin : Versus.Address
  implementation_address : Versus.ContractAddress
  state_address : Versus.ContractAddress
deriving DecidableEq, Repr

/-- Error enumeration of the Proxy contract (`CustomContractError`). -/
inductive CustomContractError
  | ParseParams
  | LogFull
  | LogMalformed
  | InvokeContractError
  | InvokeTransferError
  | ContractPaused
  | AlreadyInitialized
  | UnInitialized
  | OnlyImplementation
  | OnlyProxy
  | StateInvokeError
  | OnlyAdmin
deriving DecidableEq, Repr

abbrev ContractResult (A : Type) := Except CustomContractError A

/-- Translation of `contract_proxy_init` (the constructor): records both
addresses and makes the deploying account the admin. -/
def contract_proxy_init (init_origin : Nat)
    (implementation_address state_address : Versus.ContractAddress) :
    StateProxy :=
  { admin := .Account init_origin,
    implementation_address := implementation_address,
    state_address := state_address }

/-- Translation of `contract_proxy_update_admin`: gated to the current admin
only; no initialization guard exists on the Proxy. -/
def contract_proxy_update_admin (sender : Versus.Address)
    (new_admin : Versus.Address) (st : StateProxy) :
    ContractResult StateProxy :=
  if sender = st.admin then .ok { st with admin := new_admin }
  else .error .OnlyAdmin

/-- Outcome of a raw host invocation of a contract entry point
(`invoke_contract_raw`): raw success bytes, a structured logic reject with a
reason code and a return-value payload, or any other failure (missing
contract, missing entry point, trap, ...). -/
inductive InvokeOutcome
  | success (rv : List Nat)
  | logicReject (reason : Int) (rv : List Nat)
  | otherFailure
deriving DecidableEq, Repr

/-- The behavior of the rest of the ledger as seen through
`invoke_contract_raw`: the outcome of invoking an entry point name on a
contract address with a parameter byte string and an attached amount. -/
abbrev HostBehavior :=
  Versus.ContractAddress → String → List Nat → Nat → InvokeOutcome

/-- What a caller of the Proxy fallback observes: raw success bytes, a
re-raised structured reject (reason code plus payload), a contract error of
the Proxy itself, or a trap. -/
inductive FallbackOutcome
  | ok (rv : List Nat)
  | reject (reason : Int) (rv : List Nat)
  | contractError (e : CustomContractError)
  | trap
deriving DecidableEq, Repr

/-- The named receive entry points of the Proxy contract; any other entry
point name is routed to the fallback. -/
def proxyNamedEntrypoints : List String :=
  ["initialize", "logEvent", "view", "updateAdmin", "updateImplementation"]

/-- Translation of `receive_fallback`: reads the requested entry point name
and the full parameter bytes, re-invokes that name on the current
implementation address with the same bytes and attached amount, and relays
the outcome: success bytes unchanged, a logic reject re-raised with the same
reason and payload (`Reject::new` aborts on reason zero, which the host never
produces for a logic reject), and any other failure as
`InvokeContractError`.  The Proxy durable store is returned untouched. -/
def receive_fallback (f : HostBehavior) (st : StateProxy)
    (entrypoint : String) (param : List Nat) (amount : Nat) :
    FallbackOutcome × StateProxy :=
  match f st.implementation_address entrypoint param amount with
  | .success rv => (.ok rv, st)
  | .logicReject reason rv =>
      if reason = 0 then (.trap, st) else (.reject reason rv, st)
  | .otherFailure => (.contractError .InvokeContractError, st)

/-- Definition following the words of the spec, for the refinement claim:
what a caller observes when invoking the entry point name with the same
parameter bytes and attached amount directly on the implementation address —
the raw outcome of that invocation, unchanged. -/
def direct_call_observation (f : HostBehavior)
    (implementation : Versus.ContractAddress) (entrypoint : String)
    (param : List Nat) (amount : Nat) : InvokeOutcome :=
  f implementation entrypoint param amount

end VProxy

namespace Fixtures

/-- Concrete proxy contract address used by witnesses. -/
def proxyA : Versus.ContractAddress := ⟨1, 0⟩

/-- Concrete implementation contract address used by witnesses. -/
def implA : Versus.ContractAddress := ⟨2, 0⟩

/-- Concrete state contract address used by witnesses. -/
def stateA : Versus.ContractAddress := ⟨3, 0⟩

/-- Concrete player address used by witnesses. -/
def playerP : Versus.Address := .Account 7

/-- Concrete second player address used by witnesses. -/
def playerQ : Versus.Address := .Account 8

/-- Initialized State store with one recorded player and a given pause
flag. -/
def stInit (paused : Bool) : VState.State :=
  { protocol_addresses := .Initialized proxyA implA,
    player_data := [(playerQ, { state := .Suspended, result := .Win })],
    paused := paused }

/-- Fully initialized world (Implementation and State linked to each other)
with a given pause flag. -/
def wInit (paused : Bool) : VImpl.World :=
  { impl := { admin := .Account 1,
              protocol_addresses := .Initialized proxyA stateA },
    implAddr := implA,
    stateData := stInit paused,
    stateAddr := stateA }

/-- Concrete host behavior used by the fallback witness: `"foo"` succeeds
with raw bytes, anything else logic-rejects with reason `-3`. -/
def fooBehavior : VProxy.HostBehavior := fun _ name _ _ =>
  if name = "foo" then .success [7, 7] else .logicReject (-3) [9]

/-- Concrete Proxy durable store used by the fallback witness. -/
def proxySt : VProxy.StateProxy :=
  { admin := .Account 1, implementation_address := implA,
    state_address := stateA }

/-- World before any initialization: both stores still uninitialized. -/
def wUninit : VImpl.World :=
  { impl := VImpl.StateImplementation.new (.Account 1), implAddr := implA,
    stateData := VState.State.new, stateAddr := stateA }

end Fixtures


namespace VState

/-- Looking up the player just inserted yields the inserted record. -/
lemma lookupPlayer_insertPlayer_self (l : List (Versus.Address × PlayerData))
    (p : Versus.Address) (d : PlayerData) :
    lookupPlayer (insertPlayer l p d) p = some d := by
  induction l with
  | nil => simp [insertPlayer, lookupPlayer]
  | cons hd tl ih =>
      obtain ⟨a, e⟩ := hd
      by_cases h : a = p
      · simp [insertPlayer, lookupPlayer, h]
      · simp [insertPlayer, lookupPlayer, h, ih]

/-- Looking up any other player is unaffected by an insertion. -/
lemma lookupPlayer_insertPlayer_other (l : List (Versus.Address × PlayerData))
    (p q : Versus.Address) (d : PlayerData) (hq : q ≠ p) :
    lookupPlayer (insertPlayer l p d) q = lookupPlayer l q := by
  have hpq : ¬ p = q := fun h => hq h.symm
  induction l with
  | nil => simp [insertPlayer, lookupPlayer, hpq]
  | cons hd tl ih =>
      obtain ⟨a, e⟩ := hd
      by_cases h : a = p
      · subst h
        simp [insertPlayer, lookupPlayer, hpq]
      · by_cases h2 : a = q
        · simp [insertPlayer, lookupPlayer, h, h2, hq, hpq]
        · simp [insertPlayer, lookupPlayer, h, h2, ih]

/-- Re-inserting at the same key overwrites the first insertion. -/
lemma insertPlayer_insertPlayer_self (l : List (Versus.Address × PlayerData))
    (p : Versus.Address) (d0 d1 : PlayerData) :
    insertPlayer (insertPlayer l p d0) p d1 = insertPlayer l p d1 := by
  induction l with
  | nil => simp [insertPlayer]
  | cons hd tl ih =>
      obtain ⟨a, e⟩ := hd
      by_cases h : a = p
      · simp [insertPlayer, h]
      · simp [insertPlayer, h, ih]

end VState

/-- C1: for every entry point name outside the named Proxy entry points and
every parameter byte string and attached amount, the Proxy fallback produces
the same outcome and payload as invoking that name with the same bytes and
amount directly on the current implementation address: raw success bytes are
returned unchanged, and a structured logic rejection (whose reason code is
nonzero, as the host guarantees) is re-raised with the same reason code and
the same return-value payload. -/
theorem receive_fallback_refines_direct_call (f : VProxy.HostBehavior)
    (st : VProxy.StateProxy) (entrypoint : String) (param : List Nat)
    (amount : Nat)
    (_hname : entrypoint ∉ VProxy.proxyNamedEntrypoints) :
    (∀ rv,
        VProxy.direct_call_observation f st.implementation_address entrypoint
            param amount = .success rv →
        (VProxy.receive_fallback f st entrypoint param amount).1 = .ok rv) ∧
    (∀ reason rv, reason ≠ 0 →
        VProxy.direct_call_observation f st.implementation_address entrypoint
            param amount = .logicReject reason rv →
        (VProxy.receive_fallback f st entrypoint param amount).1
          = .reject reason rv) := by
  constructor
  · intro rv h
    unfold VProxy.direct_call_observation at h
    unfold VProxy.receive_fallback
    rw [h]
  · intro reason rv hr h
    unfold VProxy.direct_call_observation at h
    unfold VProxy.receive_fallback
    rw [h]
    simp [hr]

/-- Witness for C1 at a concrete behavior: a successful forwarded call
returns the raw bytes, a logic-rejected one re-raises reason and payload. -/
theorem receive_fallback_refines_direct_call_witness :
    (VProxy.receive_fallback Fixtures.fooBehavior Fixtures.proxySt "foo"
        [1, 2] 5).1 = .ok [7, 7] ∧
    (VProxy.receive_fallback Fixtures.fooBehavior Fixtures.proxySt "bar"
        [1, 2] 0).1 = .reject (-3) [9] := by
  constructor
  · exact (receive_fallback_refines_direct_call Fixtures.fooBehavior
      Fixtures.proxySt "foo" [1, 2] 5 (by decide)).1 [7, 7] (by decide)
  · exact (receive_fallback_refines_direct_call Fixtures.fooBehavior
      Fixtures.proxySt "bar" [1, 2] 0 (by decide)).2 (-3) [9] (by decide)
      (by decide)

/-- C10: the Proxy fallback never mutates the Proxy durable store — whatever
the outcome of the forwarded invocation, admin, implementation address and
state address come out exactly as they went in. -/
theorem receive_fallback_preserves_proxy_state (f : VProxy.HostBehavior)
    (st : VProxy.StateProxy) (entrypoint : String) (param : List Nat)
    (amount : Nat) :
    (VProxy.receive_fallback f st entrypoint param amount).2 = st := by
  unfold VProxy.receive_fallback
  cases f st.implementation_address entrypoint param amount with
  | success rv => rfl
  | logicReject reason rv => by_cases h : reason = 0 <;> simp [h]
  | otherFailure => rfl

/-- C7: the State getters `getPaused` and `getPlayerData` are read-only and
succeed for every store, initialized or not — `getPaused` returns the stored
pause flag, `getPlayerData` the stored record of the player — while `view`
fails with `UnInitialized` whenever the protocol addresses are not set and
otherwise returns the stored proxy address, implementation address and pause
flag. -/
theorem state_getters_and_view (st : VState.State) :
    (VState.contract_state_get_paused st = .ok st.paused) ∧
    (∀ p d, VState.lookupPlayer st.player_data p = some d →
        VState.contract_state_get_player_data p st = .ok (d.state, d.result)) ∧
    (st.protocol_addresses = .UnInitialized →
        VState.contract_state_view st = .error .UnInitialized) ∧
    (∀ pa ia, st.protocol_addresses = .Initialized pa ia →
        VState.contract_state_view st
          = .ok { proxy_address := pa, implementation_address := ia,
                  paused := st.paused }) := by
  refine ⟨rfl, ?_, ?_, ?_⟩
  · intro p d h
    simp [VState.contract_state_get_player_data, h]
  · intro h
    simp [VState.contract_state_view,
      VState.get_protocol_addresses_from_state, h]
  · intro pa ia h
    simp [VState.contract_state_view,
      VState.get_protocol_addresses_from_state, h]

/-- Witness for C7 at concrete stores: a recorded player is read back, view
succeeds on an initialized store and fails on a fresh one. -/
theorem state_getters_and_view_witness :
    VState.contract_state_get_player_data Fixtures.playerQ
        (Fixtures.stInit false) = .ok (.Suspended, .Win) ∧
    VState.contract_state_view (Fixtures.stInit false)
      = .ok { proxy_address := Fixtures.proxyA,
              implementation_address := Fixtures.implA, paused := false } ∧
    VState.contract_state_view VState.State.new = .error .UnInitialized :=
  ⟨(state_getters_and_view (Fixtures.stInit false)).2.1 Fixtures.playerQ
      { state := .Suspended, result := .Win } (by decide),
   (state_getters_and_view (Fixtures.stInit false)).2.2.2 Fixtures.proxyA
      Fixtures.implA (by decide),
   (state_getters_and_view VState.State.new).2.2.1 (by decide)⟩

/-- C9: on an initialized State store, `setImplementationAddress` from the
recorded proxy replaces only the implementation half of the protocol
addresses — the proxy half, the pause flag and the player map are untouched —
and from any other sender fails with `OnlyProxy`. -/
theorem set_implementation_address_spec :
    (∀ st pa ia sender ni,
        st.protocol_addresses = VState.ProtocolAddressesState.Initialized pa ia →
        sender.matches_contract pa = true →
        VState.contract_state_set_implementation_address sender ni st
          = .ok { st with protocol_addresses := .Initialized pa ni }) ∧
    (∀ st pa ia sender ni,
        st.protocol_addresses = VState.ProtocolAddressesState.Initialized pa ia →
        sender.matches_contract pa = false →
        VState.contract_state_set_implementation_address sender ni st
          = .error .OnlyProxy) := by
  constructor
  · intro st pa ia sender ni hinit hsender
    simp [VState.contract_state_set_implementation_address,
      VState.get_protocol_addresses_from_state, VState.only_proxy,
      hinit, hsender]
  · intro st pa ia sender ni hinit hsender
    simp [VState.contract_state_set_implementation_address,
      VState.get_protocol_addresses_from_state, VState.only_proxy,
      hinit, hsender]

/-- Witness for C9 at a concrete store: the proxy sender swaps the
implementation half, an account sender is refused. -/
theorem set_implementation_address_spec_witness :
    VState.contract_state_set_implementation_address
        (.Contract Fixtures.proxyA) ⟨9, 0⟩ (Fixtures.stInit false)
      = .ok { Fixtures.stInit false with
          protocol_addresses := .Initialized Fixtures.proxyA ⟨9, 0⟩ } ∧
    VState.contract_state_set_implementation_address
        (.Account 4) ⟨9, 0⟩ (Fixtures.stInit false)
      = .error .OnlyProxy :=
  ⟨set_implementation_address_spec.1 (Fixtures.stInit false) Fixtures.proxyA
      Fixtures.implA (.Contract Fixtures.proxyA) ⟨9, 0⟩ rfl (by decide),
   set_implementation_address_spec.2 (Fixtures.stInit false) Fixtures.proxyA
      Fixtures.implA (.Account 4) ⟨9, 0⟩ rfl (by decide)⟩

/-- C8: on an initialized State store, `updatePlayerState(P, Suspended)` from
the recorded implementation sender rewrites exactly the record of P to
`(Suspended, prev)` where `prev` is the battle result P held before the
update (`NoResult` if P had no record); a following `getPlayerData(P)`
returns `(Suspended, prev)`, every other player record is untouched, and the
pause flag and protocol addresses are untouched. -/
theorem update_player_state_round_trip (st : VState.State)
    (pa ia : Versus.ContractAddress) (sender P : Versus.Address)
    (prev : VState.BattleResult)
    (hinit : st.protocol_addresses
      = VState.ProtocolAddressesState.Initialized pa ia)
    (hsender : sender.matches_contract ia = true)
    (hprev : prev = ((VState.lookupPlayer st.player_data P).map
      VState.PlayerData.result).getD .NoResult) :
    VState.contract_state_update_player_state sender P .Suspended st
      = .ok { st with
          player_data :=
            VState.insertPlayer st.player_data P ⟨.Suspended, prev⟩ } ∧
    VState.contract_state_get_player_data P
        { st with
          player_data :=
            VState.insertPlayer st.player_data P ⟨.Suspended, prev⟩ }
      = .ok (.Suspended, prev) ∧
    (∀ q, q ≠ P →
        VState.lookupPlayer
            (VState.insertPlayer st.player_data P ⟨.Suspended, prev⟩) q
          = VState.lookupPlayer st.player_data q) := by
  refine ⟨?_, ?_, ?_⟩
  · cases hl : VState.lookupPlayer st.player_data P with
    | some d =>
        simp [VState.contract_state_update_player_state,
          VState.get_protocol_addresses_from_state,
          VState.only_implementation, VState.entryOrInsert,
          hinit, hsender, hl, hprev]
    | none =>
        simp [VState.contract_state_update_player_state,
          VState.get_protocol_addresses_from_state,
          VState.only_implementation, VState.entryOrInsert,
          hinit, hsender, hl, hprev,
          VState.insertPlayer_insertPlayer_self]
  · simp [VState.contract_state_get_player_data,
      VState.lookupPlayer_insertPlayer_self]
  · intro q hq
    exact VState.lookupPlayer_insertPlayer_other st.player_data P q _ hq

/-- Witness for C8 at a concrete store: updating a recorded player keeps the
old battle result, updating a fresh player yields `NoResult`. -/
theorem update_player_state_round_trip_witness :
    VState.contract_state_update_player_state (.Contract Fixtures.implA)
        Fixtures.playerQ .Suspended (Fixtures.stInit false)
      = .ok { Fixtures.stInit false with
          player_data :=
            VState.insertPlayer (Fixtures.stInit false).player_data
              Fixtures.playerQ ⟨.Suspended, .Win⟩ } ∧
    VState.contract_state_get_player_data Fixtures.playerQ
        { Fixtures.stInit false with
          player_data :=
            VState.insertPlayer (Fixtures.stInit false).player_data
              Fixtures.playerQ ⟨.Suspended, .Win⟩ }
      = .ok (.Suspended, .Win) :=
  ⟨(update_player_state_round_trip (Fixtures.stInit false) Fixtures.proxyA
      Fixtures.implA (.Contract Fixtures.implA) Fixtures.playerQ .Win rfl
      (by decide) (by decide)).1,
   (update_player_state_round_trip (Fixtures.stInit false) Fixtures.proxyA
      Fixtures.implA (.Contract Fixtures.implA) Fixtures.playerQ .Win rfl
      (by decide) (by decide)).2.1⟩

namespace VState

/-- A successful `setPaused` leaves the protocol addresses unchanged. -/
lemma contract_state_set_paused_protocol (sender : Versus.Address) (b : Bool)
    (st st' : State) (h : contract_state_set_paused sender b st = .ok st') :
    st'.protocol_addresses = st.protocol_addresses := by
  unfold contract_state_set_paused get_protocol_addresses_from_state
    only_implementation at h
  repeat' split at h
  all_goals simp_all
  all_goals subst h
  all_goals simp

/-- A successful `updatePlayerState` leaves the protocol addresses
unchanged. -/
lemma contract_state_update_player_state_protocol (sender player : Versus.Address)
    (ps : PlayerState) (st st' : State)
    (h : contract_state_update_player_state sender player ps st = .ok st') :
    st'.protocol_addresses = st.protocol_addresses := by
  unfold contract_state_update_player_state get_protocol_addresses_from_state
    only_implementation at h
  repeat' split at h
  all_goals simp_all
  all_goals subst h
  all_goals simp

/-- A successful `updateBattleResult` leaves the protocol addresses
unchanged. -/
lemma contract_state_update_battle_result_protocol (sender player : Versus.Address)
    (r : BattleResult) (st st' : State)
    (h : contract_state_update_battle_result sender player r st = .ok st') :
    st'.protocol_addresses = st.protocol_addresses := by
  unfold contract_state_update_battle_result get_protocol_addresses_from_state
    only_implementation at h
  repeat' split at h
  all_goals simp_all
  all_goals subst h
  all_goals simp

/-- A successful `addPlayer` on State leaves the protocol addresses
unchanged. -/
lemma contract_state_set_player_data_protocol (sender player : Versus.Address)
    (st st' : State)
    (h : contract_state_set_player_data sender player st = .ok st') :
    st'.protocol_addresses = st.protocol_addresses := by
  unfold contract_state_set_player_data get_protocol_addresses_from_state
    only_implementation at h
  repeat' split at h
  all_goals simp_all
  all_goals subst h
  all_goals simp

/-- A successful `setImplementationAddress` leaves the protocol addresses
initialized. -/
lemma contract_state_set_implementation_address_protocol
    (sender : Versus.Address) (ni : Versus.ContractAddress) (st st' : State)
    (h : contract_state_set_implementation_address sender ni st = .ok st') :
    st'.protocol_addresses ≠ .UnInitialized := by
  unfold contract_state_set_implementation_address
    get_protocol_addresses_from_state only_proxy at h
  repeat' split at h
  all_goals simp_all
  all_goals subst h
  all_goals simp

/-- A successful State `initialize` leaves the protocol addresses
initialized. -/
lemma contract_state_initialize_protocol (sender : Versus.Address)
    (p i : Versus.ContractAddress) (st st' : State)
    (h : contract_state_initialize sender p i st = .ok st') :
    st'.protocol_addresses ≠ .UnInitialized := by
  unfold contract_state_initialize at h
  split at h
  all_goals simp_all
  all_goals subst h
  all_goals simp

end VState

namespace VImpl

/-- A successful Implementation `initialize` leaves the protocol addresses
initialized. -/
lemma contract_initialize_protocol (sender : Versus.Address)
    (p s : Versus.ContractAddress) (st st' : StateImplementation)
    (h : contract_initialize sender p s st = .ok st') :
    st'.protocol_addresses ≠ .UnInitialized := by
  unfold contract_initialize at h
  split at h
  all_goals simp_all
  all_goals subst h
  all_goals simp

/-- A successful `updateAdmin` leaves the protocol addresses unchanged. -/
lemma contract_implementation_update_admin_protocol
    (sender new_admin : Versus.Address) (st st' : StateImplementation)
    (h : contract_implementation_update_admin sender new_admin st = .ok st') :
    st'.protocol_addresses = st.protocol_addresses := by
  unfold contract_implementation_update_admin at h
  split at h
  all_goals simp_all
  all_goals subst h
  all_goals simp

/-- A successful Implementation `updatePlayerState` leaves the Implementation
store unchanged and the State protocol addresses unchanged. -/
lemma contract_implementation_update_player_state_frame
    (sender player : Versus.Address) (ps : PlayerState) (w w' : World)
    (h : contract_implementation_update_player_state sender player ps w
      = .ok w') :
    w'.impl = w.impl ∧
    w'.stateData.protocol_addresses = w.stateData.protocol_addresses := by
  unfold contract_implementation_update_player_state at h
  repeat' split at h
  all_goals simp_all
  rename_i st heq
  subst h
  exact ⟨rfl, VState.contract_state_update_player_state_protocol _ _ _ _ _ heq⟩

/-- A successful Implementation `updateBattleResult` leaves the
Implementation store unchanged and the State protocol addresses
unchanged. -/
lemma contract_implementation_update_battle_result_frame
    (sender player : Versus.Address) (r : BattleResult) (w w' : World)
    (h : contract_implementation_update_battle_result sender player r w
      = .ok w') :
    w'.impl = w.impl ∧
    w'.stateData.protocol_addresses = w.stateData.protocol_addresses := by
  unfold contract_implementation_update_battle_result at h
  repeat' split at h
  all_goals simp_all
  rename_i st heq
  subst h
  exact ⟨rfl, VState.contract_state_update_battle_result_protocol _ _ _ _ _ heq⟩

/-- A successful Implementation `addPlayer` leaves the Implementation store
unchanged and the State protocol addresses unchanged. -/
lemma contract_implementation_add_player_frame
    (sender player : Versus.Address) (w w' : World)
    (h : contract_implementation_add_player sender player w = .ok w') :
    w'.impl = w.impl ∧
    w'.stateData.protocol_addresses = w.stateData.protocol_addresses := by
  unfold contract_implementation_add_player at h
  repeat' split at h
  all_goals simp_all
  rename_i st heq
  subst h
  exact ⟨rfl, VState.contract_state_set_player_data_protocol _ _ _ _ heq⟩

/-- A successful `pause` leaves the Implementation store unchanged and the
State protocol addresses unchanged. -/
lemma contract_pause_frame (sender : Versus.Address) (w w' : World)
    (h : contract_pause sender w = .ok w') :
    w'.impl = w.impl ∧
    w'.stateData.protocol_addresses = w.stateData.protocol_addresses := by
  unfold contract_pause at h
  repeat' split at h
  all_goals simp_all
  rename_i st heq
  subst h
  exact ⟨rfl, VState.contract_state_set_paused_protocol _ _ _ _ heq⟩

/-- A successful `unpause` leaves the Implementation store unchanged and the
State protocol addresses unchanged. -/
lemma contract_un_pause_frame (sender : Versus.Address) (w w' : World)
    (h : contract_un_pause sender w = .ok w') :
    w'.impl = w.impl ∧
    w'.stateData.protocol_addresses = w.stateData.protocol_addresses := by
  unfold contract_un_pause at h
  repeat' split at h
  all_goals simp_all
  rename_i st heq
  subst h
  exact ⟨rfl, VState.contract_state_set_paused_protocol _ _ _ _ heq⟩

end VImpl

/-- C3: on an initialized State store, every Implementation-gated mutable
entry point (`setPaused`, `updatePlayerState`, `updateBattleResult`,
`addPlayer`) called by a sender other than the recorded implementation
address rejects with `OnlyImplementation`; and on a world whose
Implementation is initialized, every Proxy-gated business mutation
(`updatePlayerState`, `updateBattleResult`, `addPlayer`) called by a sender
other than the recorded proxy address rejects with `OnlyProxy`.  A rejected
entry point commits nothing: the durable stores are rolled back by the host,
which the embedding renders by the error outcome carrying no successor
state. -/
theorem mutations_gated_to_implementation_and_proxy :
    (∀ st pa ia sender b player ps r,
        st.protocol_addresses
          = VState.ProtocolAddressesState.Initialized pa ia →
        sender.matches_contract ia = false →
        VState.contract_state_set_paused sender b st
            = .error .OnlyImplementation ∧
        VState.contract_state_update_player_state sender player ps st
            = .error .OnlyImplementation ∧
        VState.contract_state_update_battle_result sender player r st
            = .error .OnlyImplementation ∧
        VState.contract_state_set_player_data sender player st
            = .error .OnlyImplementation) ∧
    (∀ w pa sa sender player ps r,
        (VImpl.World.impl w).protocol_addresses
          = VImpl.ProtocolAddressesImplementation.Initialized pa sa →
        sender.matches_contract pa = false →
        VImpl.contract_implementation_update_player_state sender player ps w
            = .error .OnlyProxy ∧
        VImpl.contract_implementation_update_battle_result sender player r w
            = .error .OnlyProxy ∧
        VImpl.contract_implementation_add_player sender player w
            = .error .OnlyProxy) := by
  constructor
  · intro st pa ia sender b player ps r hinit hsender
    refine ⟨?_, ?_, ?_, ?_⟩ <;>
      simp [VState.contract_state_set_paused,
        VState.contract_state_update_player_state,
        VState.contract_state_update_battle_result,
        VState.contract_state_set_player_data,
        VState.get_protocol_addresses_from_state,
        VState.only_implementation, hinit, hsender]
  · intro w pa sa sender player ps r hinit hsender
    refine ⟨?_, ?_, ?_⟩ <;>
      simp [VImpl.contract_implementation_update_player_state,
        VImpl.contract_implementation_update_battle_result,
        VImpl.contract_implementation_add_player,
        VImpl.get_protocol_addresses_from_implementation,
        VImpl.only_proxy, hinit, hsender]

/-- Witness for C3 at concrete stores: an account sender is rejected by the
State mutations, and a non-proxy contract sender by the Implementation
mutations. -/
theorem mutations_gated_witness :
    VState.contract_state_set_paused (.Account 4) true (Fixtures.stInit false)
      = .error .OnlyImplementation ∧
    VImpl.contract_implementation_add_player (.Contract Fixtures.stateA)
        Fixtures.playerP (Fixtures.wInit false) = .error .OnlyProxy :=
  ⟨(mutations_gated_to_implementation_and_proxy.1 (Fixtures.stInit false)
      Fixtures.proxyA Fixtures.implA (.Account 4) true Fixtures.playerP
      .Active .NoResult rfl (by decide)).1,
   (mutations_gated_to_implementation_and_proxy.2 (Fixtures.wInit false)
      Fixtures.proxyA Fixtures.stateA (.Contract Fixtures.stateA)
      Fixtures.playerP .Active .NoResult rfl (by decide)).2.2⟩

/-- C4: for both the State and the Implementation components, `initialize`
succeeds for any sender exactly when the protocol addresses are still
uninitialized, every later call fails with `AlreadyInitialized` regardless of
sender, and no mutable entry point of either component ever takes the
protocol addresses back from initialized to uninitialized. -/
theorem one_shot_initialization :
    (∀ sender p i st, st.protocol_addresses
          = VState.ProtocolAddressesState.UnInitialized →
        VState.contract_state_initialize sender p i st
          = .ok { st with protocol_addresses := .Initialized p i }) ∧
    (∀ sender p i st, st.protocol_addresses
          ≠ VState.ProtocolAddressesState.UnInitialized →
        VState.contract_state_initialize sender p i st
          = .error .AlreadyInitialized) ∧
    (∀ sender p s st, st.protocol_addresses
          = VImpl.ProtocolAddressesImplementation.UnInitialized →
        VImpl.contract_initialize sender p s st
          = .ok { st with protocol_addresses := .Initialized p s }) ∧
    (∀ sender p s st, st.protocol_addresses
          ≠ VImpl.ProtocolAddressesImplementation.UnInitialized →
        VImpl.contract_initialize sender p s st
          = .error .AlreadyInitialized) ∧
    (∀ op st st', VState.applyStateOp op st = .ok st' →
        st.protocol_addresses
          ≠ VState.ProtocolAddressesState.UnInitialized →
        st'.protocol_addresses
          ≠ VState.ProtocolAddressesState.UnInitialized) ∧
    (∀ op w w', VImpl.applyImplOp op w = .ok w' →
        ((VImpl.World.impl w).protocol_addresses
            ≠ VImpl.ProtocolAddressesImplementation.UnInitialized →
          (VImpl.World.impl w').protocol_addresses
            ≠ VImpl.ProtocolAddressesImplementation.UnInitialized) ∧
        ((VImpl.World.stateData w).protocol_addresses
            ≠ VState.ProtocolAddressesState.UnInitialized →
          (VImpl.World.stateData w').protocol_addresses
            ≠ VState.ProtocolAddressesState.UnInitialized)) := by
  refine ⟨?_, ?_, ?_, ?_, ?_, ?_⟩
  · intro sender p i st h
    simp [ VState.contract_state_initialize, h]
  · intro sender p i st h
    simp [ VState.contract_state_initialize, h]
  · intro sender p s st h
    simp [ VImpl.contract_initialize, h]
  · intro sender p s st h
    simp [ VImpl.contract_initialize, h]
  · intro op st st' h hi
    cases op with
    | initializeEntry sender p i =>
        exact VState.contract_state_initialize_protocol sender p i st st' h
    | setImplementationAddress sender ni =>
        exact VState.contract_state_set_implementation_address_protocol
          sender ni st st' h
    | setPaused sender b =>
        rw [VState.contract_state_set_paused_protocol sender b st st' h]
        exact hi
    | updatePlayerState sender player ps =>
        rw [VState.contract_state_update_player_state_protocol sender player
          ps st st' h]
        exact hi
    | updateBattleResult sender player r =>
        rw [VState.contract_state_update_battle_result_protocol sender player
          r st st' h]
        exact hi
    | addPlayer sender player =>
        rw [VState.contract_state_set_player_data_protocol sender player st
          st' h]
        exact hi
  · intro op w w' h
    cases op with
    | initializeEntry sender p s =>
        simp only [VImpl.applyImplOp] at h
        split at h
        · rename_i st heq
          injection h with h2
          subst h2
          refine ⟨fun _ => ?_, fun hs => hs⟩
          exact VImpl.contract_initialize_protocol _ _ _ _ _ heq
        · exact absurd h (by simp)
    | updatePlayerState sender player ps =>
        obtain ⟨h1, h2⟩ :=
          VImpl.contract_implementation_update_player_state_frame sender
            player ps w w' h
        rw [show (VImpl.World.impl w') = VImpl.World.impl w from h1, h2]
        exact ⟨id, id⟩
    | updateBattleResult sender player r =>
        obtain ⟨h1, h2⟩ :=
          VImpl.contract_implementation_update_battle_result_frame sender
            player r w w' h
        rw [show (VImpl.World.impl w') = VImpl.World.impl w from h1, h2]
        exact ⟨id, id⟩
    | addPlayer sender player =>
        obtain ⟨h1, h2⟩ :=
          VImpl.contract_implementation_add_player_frame sender player w w' h
        rw [show (VImpl.World.impl w') = VImpl.World.impl w from h1, h2]
        exact ⟨id, id⟩
    | updateAdmin sender new_admin =>
        simp only [VImpl.applyImplOp] at h
        split at h
        · rename_i st heq
          injection h with h2
          subst h2
          have hp :=
            VImpl.contract_implementation_update_admin_protocol _ _ _ _ heq
          refine ⟨fun hi => ?_, fun hs => hs⟩
          show st.protocol_addresses ≠ _
          rw [hp]
          exact hi
        · exact absurd h (by simp)
    | pause sender =>
        obtain ⟨h1, h2⟩ := VImpl.contract_pause_frame sender w w' h
        rw [show (VImpl.World.impl w') = VImpl.World.impl w from h1, h2]
        exact ⟨id, id⟩
    | unpause sender =>
        obtain ⟨h1, h2⟩ := VImpl.contract_un_pause_frame sender w w' h
        rw [show (VImpl.World.impl w') = VImpl.World.impl w from h1, h2]
        exact ⟨id, id⟩
    | getPlayerData sender player =>
        simp only [VImpl.applyImplOp] at h
        split at h
        · injection h with h2
          subst h2
          exact ⟨id, id⟩
        · exact absurd h (by simp)

/-- Witness for C4 at concrete stores: first initialization succeeds, second
fails, and a mutable operation on an initialized store keeps it
initialized. -/
theorem one_shot_initialization_witness :
    VState.contract_state_initialize (.Account 0) Fixtures.proxyA
        Fixtures.implA VState.State.new
      = .ok { VState.State.new with
          protocol_addresses := .Initialized Fixtures.proxyA Fixtures.implA } ∧
    VState.contract_state_initialize (.Account 9) Fixtures.proxyA
        Fixtures.implA (Fixtures.stInit false)
      = .error .AlreadyInitialized ∧
    VImpl.contract_initialize (.Account 9) Fixtures.proxyA Fixtures.stateA
        (VImpl.World.impl (Fixtures.wInit false))
      = .error .AlreadyInitialized ∧
    (Fixtures.stInit true).protocol_addresses
      ≠ VState.ProtocolAddressesState.UnInitialized :=
  ⟨one_shot_initialization.1 (.Account 0) Fixtures.proxyA Fixtures.implA
      VState.State.new (by decide),
   one_shot_initialization.2.1 (.Account 9) Fixtures.proxyA Fixtures.implA
      (Fixtures.stInit false) (by decide),
   one_shot_initialization.2.2.2.1 (.Account 9) Fixtures.proxyA
      Fixtures.stateA (VImpl.World.impl (Fixtures.wInit false)) (by decide),
   one_shot_initialization.2.2.2.2.1
      (.setPaused (.Contract Fixtures.implA) true) (Fixtures.stInit false)
      (Fixtures.stInit true) (by decide) (by decide)⟩


/-- C6 counterexample: before any `initialize` has succeeded, the
Implementation `updateAdmin` entry point called by the constructor-set admin
succeeds (it is not initialization-guarded), and the State `getPaused` entry
point returns the stored flag instead of failing — both refute the claim
that every entry point other than the constructor and `initialize` fails with
`UnInitialized` before initialization. -/
theorem uninitialized_guard_counterexample :
    VImpl.contract_implementation_update_admin (.Account 1) (.Account 2)
        (VImpl.StateImplementation.new (.Account 1))
      = .ok { admin := .Account 2, protocol_addresses := .UnInitialized } ∧
    VState.contract_state_get_paused VState.State.new = .ok false := by decide

/-- C6 (amended): before `initialize` has succeeded, every entry point that
derives the protocol addresses fails with `UnInitialized` — for State these
are `setImplementationAddress`, `setPaused`, `updatePlayerState`,
`updateBattleResult`, `addPlayer` and `view`; for Implementation these are
`updatePlayerState`, `updateBattleResult`, `addPlayer`, `getPlayerData`, and
`pause`/`unpause` when called by the admin (a non-admin sender is refused
with `OnlyAdmin` first).  The State getters `getPaused`/`getPlayerData`, the
Implementation `updateAdmin` and `view`, and the Proxy entry points carry no
initialization guard: in particular `updateAdmin` on either Implementation
or Proxy succeeds for the current admin on an uninitialized instance. -/
theorem uninitialized_guards_amended :
    (∀ st sender b player ps r ni,
        VState.State.protocol_addresses st
          = VState.ProtocolAddressesState.UnInitialized →
        VState.contract_state_set_implementation_address sender ni st
            = .error .UnInitialized ∧
        VState.contract_state_set_paused sender b st
            = .error .UnInitialized ∧
        VState.contract_state_update_player_state sender player ps st
            = .error .UnInitialized ∧
        VState.contract_state_update_battle_result sender player r st
            = .error .UnInitialized ∧
        VState.contract_state_set_player_data sender player st
            = .error .UnInitialized ∧
        VState.contract_state_view st = .error .UnInitialized) ∧
    (∀ w sender player ps r,
        (VImpl.World.impl w).protocol_addresses
          = VImpl.ProtocolAddressesImplementation.UnInitialized →
        VImpl.contract_implementation_update_player_state sender player ps w
            = .error .UnInitialized ∧
        VImpl.contract_implementation_update_battle_result sender player r w
            = .error .UnInitialized ∧
        VImpl.contract_implementation_add_player sender player w
            = .error .UnInitialized ∧
        VImpl.contract_implementation_get_player_data player w
            = .error .UnInitialized ∧
        (sender = (VImpl.World.impl w).admin →
          VImpl.contract_pause sender w = .error .UnInitialized ∧
          VImpl.contract_un_pause sender w = .error .UnInitialized)) ∧
    (∀ st sender new_admin,
        sender = VImpl.StateImplementation.admin st →
        VImpl.contract_implementation_update_admin sender new_admin st
          = .ok { st with admin := new_admin }) ∧
    (∀ st sender new_admin,
        sender = VProxy.StateProxy.admin st →
        VProxy.contract_proxy_update_admin sender new_admin st
          = .ok { st with admin := new_admin }) := by
  refine ⟨?_, ?_, ?_, ?_⟩
  · intro st sender b player ps r ni h
    refine ⟨?_, ?_, ?_, ?_, ?_, ?_⟩ <;>
      simp [VState.contract_state_set_implementation_address,
        VState.contract_state_set_paused,
        VState.contract_state_update_player_state,
        VState.contract_state_update_battle_result,
        VState.contract_state_set_player_data, VState.contract_state_view,
        VState.get_protocol_addresses_from_state, h]
  · intro w sender player ps r h
    refine ⟨?_, ?_, ?_, ?_, fun hs => ⟨?_, ?_⟩⟩ <;>
      simp [VImpl.contract_implementation_update_player_state,
        VImpl.contract_implementation_update_battle_result,
        VImpl.contract_implementation_add_player,
        VImpl.contract_implementation_get_player_data,
        VImpl.contract_pause, VImpl.contract_un_pause,
        VImpl.get_protocol_addresses_from_implementation, h]
    all_goals simp [hs]
  · intro st sender new_admin hs
    simp [VImpl.contract_implementation_update_admin, hs]
  · intro st sender new_admin hs
    simp [VProxy.contract_proxy_update_admin, hs]

/-- Witness for the amended C6 at concrete uninitialized stores. -/
theorem uninitialized_guards_amended_witness :
    VState.contract_state_set_paused (.Contract Fixtures.implA) true
        VState.State.new = .error .UnInitialized ∧
    VImpl.contract_implementation_add_player (.Contract Fixtures.proxyA)
        Fixtures.playerP Fixtures.wUninit = .error .UnInitialized ∧
    VProxy.contract_proxy_update_admin (.Account 1) (.Account 2)
        Fixtures.proxySt
      = .ok { Fixtures.proxySt with admin := .Account 2 } :=
  ⟨(uninitialized_guards_amended.1 VState.State.new
      (.Contract Fixtures.implA) true Fixtures.playerP .Active .NoResult
      ⟨9, 0⟩ rfl).2.1,
   (uninitialized_guards_amended.2.1 Fixtures.wUninit
      (.Contract Fixtures.proxyA) Fixtures.playerP .Active .NoResult
      rfl).2.2.1,
   uninitialized_guards_amended.2.2.2 Fixtures.proxySt (.Account 1)
      (.Account 2) rfl⟩

/-- C2: evaluation of Implementation `addPlayer` at the decisive inputs.  On
a fully initialized, unpaused world with the recorded proxy as sender, a
player with no record in State is rejected with `AlreadyAdded`, while a
player that already has a record passes the guard and the call succeeds,
leaving the store as it was — the source guard
`ensure!(is_added, AlreadyAdded)` accepts exactly the already-added players,
the reverse of the claimed behavior. -/
theorem add_player_inverted_guard :
    VImpl.contract_implementation_add_player (.Contract Fixtures.proxyA)
        Fixtures.playerP (Fixtures.wInit false) = .error .AlreadyAdded ∧
    VImpl.contract_implementation_add_player (.Contract Fixtures.proxyA)
        Fixtures.playerQ (Fixtures.wInit false)
      = .ok (Fixtures.wInit false) := by decide

/-- C5: evaluation of the pause gate and of the resume behavior.  While the
State pause flag is true, `updatePlayerState`, `updateBattleResult` and
`addPlayer` (recorded proxy as sender, initialized world) all fail with
`ContractPaused`.  With the flag back to false and identical inputs,
`updateBattleResult` succeeds, but `updatePlayerState(P, Suspended)` fails
with `InvokeContractError` — the Implementation-side `Suspended` ordinal 2
does not parse as a State `PlayerState` — and `addPlayer` of a fresh player
fails with `AlreadyAdded` through the inverted guard. -/
theorem pause_gate_and_resume_divergence :
    VImpl.contract_implementation_update_player_state
        (.Contract Fixtures.proxyA) Fixtures.playerP .Suspended
        (Fixtures.wInit true) = .error .ContractPaused ∧
    VImpl.contract_implementation_update_battle_result
        (.Contract Fixtures.proxyA) Fixtures.playerP .Win
        (Fixtures.wInit true) = .error .ContractPaused ∧
    VImpl.contract_implementation_add_player (.Contract Fixtures.proxyA)
        Fixtures.playerP (Fixtures.wInit true) = .error .ContractPaused ∧
    VImpl.contract_implementation_update_player_state
        (.Contract Fixtures.proxyA) Fixtures.playerP .Suspended
        (Fixtures.wInit false) = .error .InvokeContractError ∧
    VImpl.contract_implementation_add_player (.Contract Fixtures.proxyA)
        Fixtures.playerP (Fixtures.wInit false) = .error .AlreadyAdded ∧
    VImpl.contract_implementation_update_battle_result
        (.Contract Fixtures.proxyA) Fixtures.playerP .Win
        (Fixtures.wInit false)
      = .ok { Fixtures.wInit false with
          stateData := { Fixtures.stInit false with
            player_data :=
              [(Fixtures.playerQ, ⟨.Suspended, .Win⟩),
               (Fixtures.playerP, ⟨.Active, .Win⟩)] } } := by decide
